import Mathlib

/-!
Verification of the `town_generator.area` module (file `src/town_generator/area.py`)
against its natural-language specification.

Shallow embedding conventions:
* Python floats are modelled as exact rationals (`ℚ`).
* The shapely/numpy geometry library is an external collaborator (spec §6); it is
  modelled as an abstract context `GeomCtx` supplying exactly the operations the
  source calls: polygon area, exterior-ring orientation query, the minimum-rotated-
  rectangle diagonal, and — for a given polygon and compass direction — the
  per-call `SplitOracle` packaging the ray-cast/edge-frame setup of lines 128-152
  (`cutAt w` is `shapely.ops.split(polygon, cut-line-at-offset-w)` of lines 160-164,
  `distToHit piece` is `pt_intersection.distance(piece)` of line 169).
* Python exceptions are modelled with `Except PyErr`; non-termination of the
  unbounded `while` loop is modelled with a fuel parameter (exhaustion returns the
  distinguished `fuelExhausted` value, which corresponds to no Python exception).
* Process-wide class state (`Area._last_id`, `Area.members`) and the object heap
  are modelled explicitly by a `Store`; an `Area` object is an index (address) into
  `Store.areas`.  Python list objects (needed to speak about the identity of the
  `sub_areas` list) live in `Store.cells`, indexed by allocation order, and an
  `Area`'s `sub_areas` attribute holds the index of its list cell.
-/

set_option autoImplicit false

namespace TownGen

/-- Enum `Category` of `area.py` (lines 11-38), one constructor per member. -/
inductive Category where
  | UNDEFINED
  | LAND
  | FIELD
  | FOREST
  | RIVER
  | LAKE
  | SEA
  | PARK
  | GARDEN
  | HOUSE
  | MANSION
  | MARKET
  | TOWNHALL
  | UNIVERSITY
  | FARM
  | CHURCH
  | CATHEDRAL
  | MONASTRY
  | FORT
  | CASTLE
  | WALL
  | DOOR
  | STREET
  | BRIDGE
  | ROAD
  | COMPOSITE
  deriving DecidableEq, Inhabited

/-- Numeric value of each `Category` member, as assigned by the `IntEnum`. -/
def Category.val : Category → Nat
  | .UNDEFINED => 0
  | .LAND => 1
  | .FIELD => 2
  | .FOREST => 3
  | .RIVER => 4
  | .LAKE => 5
  | .SEA => 6
  | .PARK => 7
  | .GARDEN => 8
  | .HOUSE => 10
  | .MANSION => 11
  | .MARKET => 12
  | .TOWNHALL => 13
  | .UNIVERSITY => 14
  | .FARM => 15
  | .CHURCH => 20
  | .CATHEDRAL => 21
  | .MONASTRY => 22
  | .FORT => 31
  | .CASTLE => 32
  | .WALL => 33
  | .DOOR => 34
  | .STREET => 50
  | .BRIDGE => 51
  | .ROAD => 52
  | .COMPOSITE => 90

/-- Python exceptions (and the fuel marker) that the embedded code can produce.
`assertionError` is raised by `assert percentage > 0` (line 124; the spec calls
this error `InvalidArgument`); `attributeError` is raised by the assignment
`self.polygon = ...` (line 127) because `polygon` is a read-only property
(lines 88-90 define no setter); `indexError` is raised by out-of-range indexing
such as `res[1]` on a shorter collection; `fuelExhausted` is not a Python
exception but the fuel model's stand-in for non-termination of the `while` loop. -/
inductive PyErr where
  | assertionError
  | attributeError
  | indexError
  | fuelExhausted
  deriving DecidableEq, Inhabited

/-- One `Area` object (the per-instance attributes set by `__init__`, lines 62-67):
`polygon` is `self._polygon`, `category` is `self._category`, `sub_areas` is the
address of the Python list object held by `self._sub_areas` (an index into
`Store.cells`), and `id` is `self._id`. -/
structure Area (Poly : Type) where
  polygon : Poly
  category : Category
  sub_areas : Nat
  id : Nat
  deriving DecidableEq

instance (Poly : Type) [Inhabited Poly] : Inhabited (Area Poly) :=
  ⟨⟨default, Category.UNDEFINED, 0, 0⟩⟩

/-- Process-wide state: `last_id` is the class variable `Area._last_id` (line 44),
`members` is the class variable `Area.members` (line 45, a list of object
references, modelled by the objects' addresses), `areas` is the heap of `Area`
objects (an object's address is its index), and `cells` is the heap of Python
list objects reachable as some `Area`'s `_sub_areas` (contents are lists of
`Area` addresses; a cell's address is its index, in allocation order). -/
structure Store (Poly : Type) where
  last_id : Nat
  members : List Nat
  areas : List (Area Poly)
  cells : List (List Nat)
  deriving DecidableEq

/-- The empty process state: no `Area` constructed yet, `_last_id == 0`. -/
def emptyStore (Poly : Type) : Store Poly :=
  { last_id := 0, members := [], areas := [], cells := [] }

/-- Contents of the Python list object at cell address `c`. -/
def cellContents {Poly : Type} (st : Store Poly) (c : Nat) : List Nat :=
  st.cells.getD c []

/-- Allocation of a fresh Python list object with the given contents; returns the
new state and the new cell's address. -/
def allocCell {Poly : Type} (st : Store Poly) (contents : List Nat) :
    Store Poly × Nat :=
  ({ st with cells := st.cells ++ [contents] }, st.cells.length)

/-- Static method `Area.get_id` (lines 47-50): increment `Area._last_id` and
return it.  Returns the value together with the updated state. -/
def Area.get_id {Poly : Type} (st : Store Poly) : Nat × Store Poly :=
  (st.last_id + 1, { st with last_id := st.last_id + 1 })

/-- Constructor `Area.__init__` (lines 52-68), translated line by line:
`if sub_areas is None: sub_areas = []` allocates a fresh empty list object;
the attributes are stored; `self._id = self.get_id()` draws a fresh id; and
`Area.members.append(self)` registers the object.  The source performs no
validation of `polygon` or `category`, so the embedding is a total function.
Returns the new state and the new object's address. -/
def Area.init {Poly : Type} (st : Store Poly) (polygon : Poly)
    (category : Category) (sub_areas : Option Nat) : Store Poly × Nat :=
  let cellSt : Store Poly × Nat :=
    match sub_areas with
    | none => allocCell st []
    | some c => (st, c)
  let st1 := cellSt.1
  let idSt := Area.get_id st1
  let obj : Area Poly :=
    { polygon := polygon, category := category, sub_areas := cellSt.2,
      id := idSt.1 }
  let st2 := idSt.2
  let addr := st2.areas.length
  ({ st2 with areas := st2.areas ++ [obj], members := st2.members ++ [addr] },
   addr)

/-- Method `Area.components` (lines 185-191): `self._sub_areas` if that list is
non-empty, else the one-element list `[self]` (addresses stand for objects). -/
def Area.components {Poly : Type} [Inhabited Poly] (st : Store Poly)
    (self : Nat) : List Nat :=
  let a := st.areas.getD self default
  if 0 < (cellContents st a.sub_areas).length then cellContents st a.sub_areas
  else [self]

/-- Property `Area.identity` (lines 83-86): returns `self._id`. -/
def Area.identity {Poly : Type} [Inhabited Poly] (st : Store Poly)
    (self : Nat) : Nat :=
  (st.areas.getD self default).id

/-- The per-call interface to the external geometry, derived (outside the model)
from the polygon and the compass direction by lines 128-152 of the source:
`cutAt w` is the piece list `ops.split(self.polygon, cut)` for the cut line at
perpendicular offset `w` (lines 160-164), and `distToHit piece` is
`pt_intersection.distance(piece)` (line 169). -/
structure SplitOracle (Poly : Type) where
  cutAt : ℚ → List Poly
  distToHit : Poly → ℚ

/-- The external geometry library (spec §6) as consumed by `area.py`:
`area` is `Polygon.area`, `is_ccw` is `polygon.exterior.is_ccw` (line 125),
`diameter` is the diagonal of `polygon.minimum_rotated_rectangle`
(lines 130-131), and `oracle polygon direction` packages the remaining
ray-cast and edge-frame computations of lines 128-152. -/
structure GeomCtx (Poly : Type) where
  area : Poly → ℚ
  is_ccw : Poly → Bool
  diameter : Poly → ℚ
  oracle : Poly → ℚ → SplitOracle Poly

/-- Piece-ordering step of the loop (lines 169-173): when the split produced at
least two pieces, swap the first two when the hit point is strictly farther from
`res[0]` than from `res[1]` — the swap branch builds `MultiPolygon([res[1],
res[0]])`, dropping any further pieces, while the no-swap branch keeps the whole
collection. -/
def orderPieces {Poly : Type} (dP : Poly → ℚ) (a0 a1 : Poly)
    (rest : List Poly) : List Poly :=
  if dP a0 > dP a1 then [a1, a0] else a0 :: a1 :: rest

/-- The `while` loop of `Area.split` (lines 159-177), fuel-indexed.  The loop
condition re-reads `res[0]` each iteration (raising `IndexError` when a previous
iteration left `res` empty); inside, the polygon is cut at the current offset,
`dw` is halved, an empty result shrinks `width` and continues, a one-piece
result raises `IndexError` at `res[1]`, and otherwise the pieces are ordered by
distance to the hit point and `width` moves by `dw` away from or toward the hit
point according to the first piece's area. -/
def splitLoop {Poly : Type} (ω : SplitOracle Poly) (area : Poly → ℚ)
    (house_area : ℚ) : Nat → ℚ → ℚ → List Poly → Except PyErr (List Poly)
  | 0, _, _, _ => .error .fuelExhausted
  | fuel + 1, width, dw, res =>
    match res with
    | [] => .error .indexError
    | r0 :: _ =>
      if 1 < |area r0 - house_area| then
        let res1 := ω.cutAt width
        let dw1 := dw / 2
        match res1 with
        | [] => splitLoop ω area house_area fuel (width - dw1) dw1 []
        | [_] => .error .indexError
        | a0 :: a1 :: rest =>
          let res2 := orderPieces ω.distToHit a0 a1 rest
          let width1 :=
            if area (res2.headD a0) > house_area then width - dw1
            else width + dw1
          splitLoop ω area house_area fuel width1 dw1 res2
      else .ok res

/-- The Python default of the `new_category` parameter of `Area.split`
(line 100): `Category.GARDEN`. -/
def split_default_new_category : Category := Category.GARDEN

/-- Materialization tail of `Area.split` (lines 178-183):
`area0 = Area(res[0], self._category)` then `area1 = Area(res[1],
new_category)` — so a loop exit with fewer than two pieces raises `IndexError`
(when there is exactly one piece, Python raises at `res[1]` after having
constructed `area0`; the model drops that partial registry effect because the
exception escapes `split` and no claim inspects post-exception state).  With
`inplace` a fresh list `[area0, area1]` is assigned to `self._sub_areas` and
`None` (modelled `none`) is returned; otherwise the pair of new addresses is
returned. -/
def materialize {Poly : Type} [Inhabited Poly] (st : Store Poly) (self : Nat)
    (cat0 new_category : Category) (inplace : Bool) :
    List Poly → Except PyErr (Store Poly × Option (Nat × Nat))
  | [] => .error .indexError
  | [_] => .error .indexError
  | r0 :: r1 :: _ =>
    let s1 := Area.init st r0 cat0 none
    let s2 := Area.init s1.1 r1 new_category none
    if inplace then
      let s3 := allocCell s2.1 [s1.2, s2.2]
      .ok ({ s3.1 with
              areas := s3.1.areas.set self
                { (s3.1.areas.getD self default) with
                    sub_areas := s3.2 } }, none)
    else
      .ok (s2.1, some (s1.2, s2.2))

/-- Method `Area.split` (lines 96-183), translated step by step:
1. `assert percentage > 0` (line 124) raises `AssertionError` when violated;
2. the orientation check (lines 125-127): when `self.polygon.exterior.is_ccw`
   is false, the source executes `self.polygon = Polygon(coords[::-1])`, an
   assignment to the read-only property `polygon` (lines 88-90 define a getter
   and no setter), which in Python raises `AttributeError` unconditionally;
3. the ray cast, boundary hit and edge frame (lines 128-152) are external
   floating-point geometry, packaged as `g.oracle polygon direction`;
4. `house_area = self.polygon.area * percentage` (line 153), the initial
   `width = diameter / 2` (line 154), `res = [self.polygon]` (lines 155-157)
   and `dw = width` (line 158) feed the loop (lines 159-177);
5. the tail of the method is `materialize` above (lines 178-183). -/
def Area.split {Poly : Type} [Inhabited Poly] (g : GeomCtx Poly)
    (st : Store Poly) (self : Nat) (percentage direction : ℚ) (inplace : Bool)
    (new_category : Category) (fuel : Nat) :
    Except PyErr (Store Poly × Option (Nat × Nat)) :=
  let a := st.areas.getD self default
  if percentage > 0 then
    if g.is_ccw a.polygon then
      let ω := g.oracle a.polygon direction
      let house_area := g.area a.polygon * percentage
      let width := g.diameter a.polygon / 2
      match splitLoop ω g.area house_area fuel width width [a.polygon] with
      | .error e => .error e
      | .ok res => materialize st self a.category new_category inplace res
    else .error .attributeError
  else .error .assertionError

/-- A sequence of `Area` constructions (each with default `sub_areas`), threading
the process state; returns the final state and the list of assigned ids, in
construction order. -/
def constructAll {Poly : Type} [Inhabited Poly] (st : Store Poly) :
    List (Poly × Category) → Store Poly × List Nat
  | [] => (st, [])
  | (p, c) :: rest =>
    let s1 := Area.init st p c none
    let idNew := Area.identity s1.1 s1.2
    let s2 := constructAll s1.1 rest
    (s2.1, idNew :: s2.2)

instance {ε α : Type} [DecidableEq ε] [DecidableEq α] :
    DecidableEq (Except ε α)
  | .ok a, .ok b =>
    if h : a = b then .isTrue (by rw [h])
    else .isFalse (fun hc => h (Except.ok.inj hc))
  | .ok _, .error _ => .isFalse (fun hc => Except.noConfusion hc)
  | .error _, .ok _ => .isFalse (fun hc => Except.noConfusion hc)
  | .error e, .error f =>
    if h : e = f then .isTrue (by rw [h])
    else .isFalse (fun hc => h (Except.error.inj hc))

/-- Concrete oracle for witness runs: every cut yields two pieces of area 4,
both at distance 0 from the hit point. -/
def QSplit : SplitOracle ℚ :=
  { cutAt := fun _ => [4, 4], distToHit := fun _ => 0 }

/-- Concrete geometry for witness runs: a polygon is represented by its area
(a rational), every polygon counts as counter-clockwise, and the bounding
rectangle diagonal is 4. -/
def QCtx : GeomCtx ℚ :=
  { area := fun q => q, is_ccw := fun _ => true, diameter := fun _ => 4,
    oracle := fun _ _ => QSplit }

/-- Concrete geometry whose polygons are all clockwise (`is_ccw` false),
standing for e.g. the square `[(0,0),(0,40),(20,40),(20,0)]` of area 800. -/
def cwCtx : GeomCtx ℚ :=
  { area := fun q => q, is_ccw := fun _ => false, diameter := fun _ => 45,
    oracle := fun _ _ => QSplit }

/-- Witness state: one area of area 8 and category HOUSE at address 0. -/
def stW : Store ℚ := (Area.init (emptyStore ℚ) 8 Category.HOUSE none).1

/-- Witness state for the clockwise run: one area of area 800 at address 0. -/
def stCW : Store ℚ := (Area.init (emptyStore ℚ) 800 Category.HOUSE none).1

/-- The state after the concrete half-split of `stW` with `inplace = False`:
the original area plus the two fragments of area 4 (the second labelled
`ncat`), three empty sub-area cells, ids 1-3. -/
def runStore (ncat : Category) : Store ℚ :=
  { last_id := 3, members := [0, 1, 2],
    areas := [⟨8, Category.HOUSE, 0, 1⟩, ⟨4, Category.HOUSE, 1, 2⟩,
              ⟨4, ncat, 2, 3⟩],
    cells := [[], [], []] }

/-- The state after the concrete half-split of `stW` with `inplace = True`:
as `runStore`, except the original area's `sub_areas` now points at the fresh
cell 3 holding the two fragment addresses. -/
def c6Store : Store ℚ :=
  { last_id := 3, members := [0, 1, 2],
    areas := [⟨8, Category.HOUSE, 3, 1⟩, ⟨4, Category.HOUSE, 1, 2⟩,
              ⟨4, Category.GARDEN, 2, 3⟩],
    cells := [[], [], [], [1, 2]] }

section Helpers

variable {Poly : Type}

lemma getD_append_lt {α : Type} (l l' : List α) (d : α) (n : Nat)
    (h : n < l.length) : (l ++ l').getD n d = l.getD n d :=
  List.getD_append l l' d n h

lemma getD_append_len {α : Type} (l : List α) (a d : α) :
    (l ++ [a]).getD l.length d = a := by
  simp [List.getD_append_right]

lemma getD_set_self {α : Type} (l : List α) (i : Nat) (a d : α)
    (h : i < l.length) : (l.set i a).getD i d = a := by
  simp [List.getD, List.getElem?_set_self, h]

lemma getD_set_ne {α : Type} (l : List α) (i j : Nat) (a d : α) (h : i ≠ j) :
    (l.set i a).getD j d = l.getD j d := by
  simp [List.getD, List.getElem?_set_ne h]

lemma init_fst_areas (st : Store Poly) (p : Poly) (c : Category) :
    (Area.init st p c none).1.areas
      = st.areas ++ [⟨p, c, st.cells.length, st.last_id + 1⟩] := rfl

lemma init_fst_cells (st : Store Poly) (p : Poly) (c : Category) :
    (Area.init st p c none).1.cells = st.cells ++ [[]] := rfl

lemma init_fst_members (st : Store Poly) (p : Poly) (c : Category) :
    (Area.init st p c none).1.members = st.members ++ [st.areas.length] := rfl

lemma init_fst_last_id (st : Store Poly) (p : Poly) (c : Category) :
    (Area.init st p c none).1.last_id = st.last_id + 1 := rfl

lemma init_snd (st : Store Poly) (p : Poly) (c : Category) :
    (Area.init st p c none).2 = st.areas.length := rfl

lemma init_identity [Inhabited Poly] (st : Store Poly) (p : Poly)
    (c : Category) :
    Area.identity (Area.init st p c none).1 (Area.init st p c none).2
      = st.last_id + 1 := by
  rw [Area.identity, init_snd, init_fst_areas, getD_append_len]

lemma splitLoop_succ_cons (ω : SplitOracle Poly) (area : Poly → ℚ)
    (house_area : ℚ) (n : Nat) (width dw : ℚ) (r0 : Poly) (t : List Poly) :
    splitLoop ω area house_area (n + 1) width dw (r0 :: t)
      = if 1 < |area r0 - house_area| then
          match ω.cutAt width with
          | [] => splitLoop ω area house_area n (width - dw / 2) (dw / 2) []
          | [_] => .error .indexError
          | a0 :: a1 :: rest =>
            splitLoop ω area house_area n
              (if area ((orderPieces ω.distToHit a0 a1 rest).headD a0)
                    > house_area
               then width - dw / 2 else width + dw / 2)
              (dw / 2) (orderPieces ω.distToHit a0 a1 rest)
        else .ok (r0 :: t) := rfl

/-- On every successful exit of the loop the head piece satisfies the loop's
exit condition, whatever the external geometry did. -/
lemma splitLoop_ok_head [Inhabited Poly] (ω : SplitOracle Poly)
    (area : Poly → ℚ) (house_area : ℚ) (fuel : Nat) (width dw : ℚ)
    (res out : List Poly)
    (h : splitLoop ω area house_area fuel width dw res = .ok out) :
    |area (out.headD default) - house_area| ≤ 1 ∧ out ≠ [] := by
  induction fuel generalizing width dw res with
  | zero => exact Except.noConfusion h
  | succ n ih =>
    cases res with
    | nil => exact Except.noConfusion h
    | cons r0 t =>
      rw [splitLoop_succ_cons] at h
      by_cases hc : 1 < |area r0 - house_area|
      · rw [if_pos hc] at h
        cases h1 : ω.cutAt width with
        | nil => rw [h1] at h; exact ih _ _ _ h
        | cons a0 t1 =>
          cases t1 with
          | nil => rw [h1] at h; exact Except.noConfusion h
          | cons a1 rest => rw [h1] at h; exact ih _ _ _ h
      · rw [if_neg hc] at h
        cases h
        exact ⟨le_of_not_lt hc, by simp⟩

/-- The loop can fail only with `IndexError` or fuel exhaustion, never with the
precondition's `AssertionError`. -/
lemma splitLoop_ne_assertionError [Inhabited Poly] (ω : SplitOracle Poly)
    (area : Poly → ℚ) (house_area : ℚ) (fuel : Nat) (width dw : ℚ)
    (res : List Poly) :
    splitLoop ω area house_area fuel width dw res
      ≠ .error .assertionError := by
  induction fuel generalizing width dw res with
  | zero => exact fun h => PyErr.noConfusion (Except.error.inj h)
  | succ n ih =>
    cases res with
    | nil => exact fun h => PyErr.noConfusion (Except.error.inj h)
    | cons r0 t =>
      rw [splitLoop_succ_cons]
      by_cases hc : 1 < |area r0 - house_area|
      · rw [if_pos hc]
        cases h1 : ω.cutAt width with
        | nil => exact ih _ _ _
        | cons a0 t1 =>
          cases t1 with
          | nil => exact fun h => PyErr.noConfusion (Except.error.inj h)
          | cons a1 rest => exact ih _ _ _
      · rw [if_neg hc]
        exact fun h => Except.noConfusion h

lemma getD_append2_left {α : Type} (A : List α) (o0 o1 d : α) (i : Nat)
    (h : i < A.length) : ((A ++ [o0]) ++ [o1]).getD i d = A.getD i d := by
  rw [getD_append_lt _ _ _ _ (by simp; omega), getD_append_lt _ _ _ _ h]

lemma getD_append2_mid {α : Type} (A : List α) (o0 o1 d : α) :
    ((A ++ [o0]) ++ [o1]).getD A.length d = o0 := by
  rw [getD_append_lt _ _ _ _ (by simp), getD_append_len]

lemma getD_append2_last {α : Type} (A : List α) (o0 o1 d : α) :
    ((A ++ [o0]) ++ [o1]).getD (A.length + 1) d = o1 := by
  have e : A.length + 1 = (A ++ [o0]).length := by simp
  rw [e, getD_append_len]

lemma getD_append3_left {α : Type} (A : List α) (o0 o1 o2 d : α) (i : Nat)
    (h : i < A.length) :
    (((A ++ [o0]) ++ [o1]) ++ [o2]).getD i d = A.getD i d := by
  rw [getD_append_lt _ _ _ _ (by simp; omega), getD_append2_left _ _ _ _ _ h]

lemma getD_append3_last {α : Type} (A : List α) (o0 o1 o2 d : α) :
    (((A ++ [o0]) ++ [o1]) ++ [o2]).getD (A.length + 2) d = o2 := by
  have e : A.length + 2 = ((A ++ [o0]) ++ [o1]).length := by simp
  rw [e, getD_append_len]

lemma init2_snd (st : Store Poly) (r0 : Poly) (cat0 : Category) (r1 : Poly)
    (ncat : Category) :
    (Area.init (Area.init st r0 cat0 none).1 r1 ncat none).2
      = st.areas.length + 1 := by
  rw [init_snd, init_fst_areas]; simp

lemma materialize_cons_eq [Inhabited Poly] (st : Store Poly) (self : Nat)
    (cat0 ncat : Category) (inpl : Bool) (r0 r1 : Poly) (rest : List Poly) :
    materialize st self cat0 ncat inpl (r0 :: r1 :: rest)
      = (let s1 := Area.init st r0 cat0 none
         let s2 := Area.init s1.1 r1 ncat none
         if inpl then
           let s3 := allocCell s2.1 [s1.2, s2.2]
           .ok ({ s3.1 with
                   areas := s3.1.areas.set self
                     { (s3.1.areas.getD self default) with
                         sub_areas := s3.2 } }, none)
         else .ok (s2.1, some (s1.2, s2.2))) := rfl

/-- Everything the claims need about the state produced by a successful
materialization: the two fresh areas sit at addresses `st.areas.length` and
`st.areas.length + 1` and carry `cat0` / `ncat` and the loop's first two
pieces; the original object keeps its polygon, category and id; with `inplace`
its `sub_areas` becomes a fresh two-element list of the new addresses, and
without `inplace` its `sub_areas` list is untouched. -/
lemma materialize_ok [Inhabited Poly] (st : Store Poly) (self : Nat)
    (cat0 ncat : Category) (inpl : Bool) (r0 r1 : Poly) (rest : List Poly)
    (st1 : Store Poly) (r : Option (Nat × Nat))
    (hself : self < st.areas.length)
    (hcell : (st.areas.getD self default).sub_areas < st.cells.length)
    (h : materialize st self cat0 ncat inpl (r0 :: r1 :: rest)
          = .ok (st1, r)) :
    (st1.areas.getD st.areas.length default).polygon = r0
    ∧ (st1.areas.getD st.areas.length default).category = cat0
    ∧ (st1.areas.getD (st.areas.length + 1) default).category = ncat
    ∧ (st1.areas.getD self default).category
        = (st.areas.getD self default).category
    ∧ (st1.areas.getD self default).id = (st.areas.getD self default).id
    ∧ (st1.areas.getD self default).polygon
        = (st.areas.getD self default).polygon
    ∧ (inpl = true → r = none
        ∧ cellContents st1 ((st1.areas.getD self default).sub_areas)
            = [st.areas.length, st.areas.length + 1])
    ∧ (inpl = false → r = some (st.areas.length, st.areas.length + 1)
        ∧ (st1.areas.getD self default).sub_areas
            = (st.areas.getD self default).sub_areas
        ∧ cellContents st1 ((st1.areas.getD self default).sub_areas)
            = cellContents st ((st.areas.getD self default).sub_areas)) := by
  rw [materialize_cons_eq] at h
  dsimp only at h
  cases inpl with
  | false =>
    rw [if_neg (by simp)] at h
    cases h
    rw [init_snd, init2_snd]
    constructor
    · rw [init_fst_areas, init_fst_areas, init_fst_last_id, init_fst_cells,
        getD_append2_mid]
    constructor
    · rw [init_fst_areas, init_fst_areas, init_fst_last_id, init_fst_cells,
        getD_append2_mid]
    constructor
    · rw [init_fst_areas, init_fst_areas, init_fst_last_id, init_fst_cells,
        getD_append2_last]
    have hl : ((Area.init (Area.init st r0 cat0 none).1 r1 ncat
        none).1.areas.getD self default) = st.areas.getD self default := by
      rw [init_fst_areas, init_fst_areas, init_fst_last_id, init_fst_cells,
        getD_append2_left _ _ _ _ _ hself]
    refine ⟨?_, ?_, ?_, ?_, ?_⟩
    · rw [hl]
    · rw [hl]
    · rw [hl]
    · intro hc; cases hc
    intro _
    refine ⟨rfl, by rw [hl], ?_⟩
    rw [hl, cellContents, cellContents, init_fst_cells, init_fst_cells,
      getD_append2_left _ _ _ _ _ hcell]
  | true =>
    rw [if_pos rfl] at h
    cases h
    dsimp only [allocCell]
    have hlen : self
        < ((Area.init (Area.init st r0 cat0 none).1 r1 ncat
            none).1.areas).length := by
      rw [init_fst_areas, init_fst_areas]
      simp
      omega
    have hsetSelf :
        (((Area.init (Area.init st r0 cat0 none).1 r1 ncat
            none).1.areas).set self
          { ((Area.init (Area.init st r0 cat0 none).1 r1 ncat
              none).1.areas.getD self default) with
              sub_areas := (Area.init (Area.init st r0 cat0 none).1 r1 ncat
                none).1.cells.length }).getD self default
          = { ((Area.init (Area.init st r0 cat0 none).1 r1 ncat
              none).1.areas.getD self default) with
              sub_areas := (Area.init (Area.init st r0 cat0 none).1 r1 ncat
                none).1.cells.length } :=
      getD_set_self _ _ _ _ hlen
    have hl : ((Area.init (Area.init st r0 cat0 none).1 r1 ncat
        none).1.areas.getD self default) = st.areas.getD self default := by
      rw [init_fst_areas, init_fst_areas, init_fst_last_id, init_fst_cells,
        getD_append2_left _ _ _ _ _ hself]
    have hne0 : self ≠ st.areas.length := Nat.ne_of_lt hself
    have hne1 : self ≠ st.areas.length + 1 := by omega
    constructor
    · rw [getD_set_ne _ _ _ _ _ hne0, init_fst_areas, init_fst_areas,
        init_fst_last_id, init_fst_cells, getD_append2_mid]
    constructor
    · rw [getD_set_ne _ _ _ _ _ hne0, init_fst_areas, init_fst_areas,
        init_fst_last_id, init_fst_cells, getD_append2_mid]
    constructor
    · rw [getD_set_ne _ _ _ _ _ hne1, init_fst_areas, init_fst_areas,
        init_fst_last_id, init_fst_cells, getD_append2_last]
    constructor
    · rw [hsetSelf, hl]
    constructor
    · rw [hsetSelf, hl]
    constructor
    · rw [hsetSelf, hl]
    refine ⟨?_, by intro hc; cases hc⟩
    intro _
    refine ⟨rfl, ?_⟩
    rw [hsetSelf]
    dsimp only
    rw [cellContents]
    dsimp only
    rw [init_snd, init2_snd, init_fst_cells, init_fst_cells]
    have e2 : ((st.cells ++ [[]]) ++ [[]]).length = st.cells.length + 2 := by
      simp
    rw [e2, getD_append3_last]

lemma split_eq_def [Inhabited Poly] (g : GeomCtx Poly) (st : Store Poly)
    (self : Nat) (p dir : ℚ) (inpl : Bool) (ncat : Category) (fuel : Nat) :
    Area.split g st self p dir inpl ncat fuel
      = (if p > 0 then
           if g.is_ccw ((st.areas.getD self default).polygon) then
             match splitLoop
                 (g.oracle ((st.areas.getD self default).polygon) dir) g.area
                 (g.area ((st.areas.getD self default).polygon) * p) fuel
                 (g.diameter ((st.areas.getD self default).polygon) / 2)
                 (g.diameter ((st.areas.getD self default).polygon) / 2)
                 [(st.areas.getD self default).polygon] with
             | .error e => .error e
             | .ok res =>
               materialize st self ((st.areas.getD self default).category)
                 ncat inpl res
           else .error .attributeError
         else .error .assertionError) := rfl

/-- A successful `split` passed the precondition, found a counter-clockwise
polygon, got at least two pieces out of the loop, and materialized them. -/
lemma split_ok_elim [Inhabited Poly] (g : GeomCtx Poly) (st : Store Poly)
    (self : Nat) (p dir : ℚ) (inpl : Bool) (ncat : Category) (fuel : Nat)
    (st1 : Store Poly) (r : Option (Nat × Nat))
    (h : Area.split g st self p dir inpl ncat fuel = .ok (st1, r)) :
    0 < p ∧ g.is_ccw ((st.areas.getD self default).polygon) = true
    ∧ ∃ r0 r1 rest,
        splitLoop (g.oracle ((st.areas.getD self default).polygon) dir) g.area
            (g.area ((st.areas.getD self default).polygon) * p) fuel
            (g.diameter ((st.areas.getD self default).polygon) / 2)
            (g.diameter ((st.areas.getD self default).polygon) / 2)
            [(st.areas.getD self default).polygon] = .ok (r0 :: r1 :: rest)
        ∧ materialize st self ((st.areas.getD self default).category) ncat
            inpl (r0 :: r1 :: rest) = .ok (st1, r) := by
  rw [split_eq_def] at h
  by_cases hp : p > 0
  · rw [if_pos hp] at h
    cases hb : g.is_ccw ((st.areas.getD self default).polygon) with
    | false => rw [hb, if_neg (by simp)] at h; exact Except.noConfusion h
    | true =>
      rw [hb, if_pos rfl] at h
      refine ⟨hp, rfl, ?_⟩
      cases hloop : splitLoop
          (g.oracle ((st.areas.getD self default).polygon) dir) g.area
          (g.area ((st.areas.getD self default).polygon) * p) fuel
          (g.diameter ((st.areas.getD self default).polygon) / 2)
          (g.diameter ((st.areas.getD self default).polygon) / 2)
          [(st.areas.getD self default).polygon] with
      | error e => rw [hloop] at h; exact Except.noConfusion h
      | ok res =>
        rw [hloop] at h
        cases res with
        | nil => exact Except.noConfusion h
        | cons r0 t =>
          cases t with
          | nil => exact Except.noConfusion h
          | cons r1 rest => exact ⟨r0, r1, rest, rfl, h⟩
  · rw [if_neg hp] at h
    exact Except.noConfusion h

/-- Every id handed out by a construction sequence exceeds the starting
state's `_last_id` (the counter only ever increments). -/
lemma constructAll_ids_gt [Inhabited Poly] (st : Store Poly)
    (reqs : List (Poly × Category)) :
    ∀ i ∈ (constructAll st reqs).2, st.last_id < i := by
  induction reqs generalizing st with
  | nil => intro i hi; simp [constructAll] at hi
  | cons pc rest ih =>
    intro i hi
    obtain ⟨p, c⟩ := pc
    simp only [constructAll, List.mem_cons] at hi
    cases hi with
    | inl he => rw [he, init_identity]; omega
    | inr hm =>
      have := ih (Area.init st p c none).1 i hm
      rw [init_fst_last_id] at this
      omega

lemma QCtx_area (q : ℚ) : QCtx.area q = q := rfl

lemma QCtx_is_ccw (q : ℚ) : QCtx.is_ccw q = true := rfl

lemma QCtx_diameter (q : ℚ) : QCtx.diameter q = 4 := rfl

lemma QCtx_oracle (q d : ℚ) : QCtx.oracle q d = QSplit := rfl

lemma QSplit_cutAt (w : ℚ) : QSplit.cutAt w = [4, 4] := rfl

lemma QSplit_dist (q : ℚ) : QSplit.distToHit q = 0 := rfl

lemma stW_poly : (stW.areas.getD 0 default).polygon = (8 : ℚ) := rfl

/-- Symbolic evaluation of the concrete loop run: one cut at the initial
offset immediately meets the tolerance (`|4 - 4| ≤ 1`). -/
lemma run_loop_eq :
    splitLoop QSplit QCtx.area (8 * (1 / 2)) 10 (4 / 2) (4 / 2) [(8 : ℚ)]
      = .ok [4, 4] := by
  rw [splitLoop_succ_cons,
    if_pos (show (1 : ℚ) < |QCtx.area 8 - 8 * (1 / 2)| by
      rw [QCtx_area]; norm_num)]
  rw [QSplit_cutAt]
  dsimp only
  rw [orderPieces,
    if_neg (show ¬ (QSplit.distToHit 4 > QSplit.distToHit 4) by
      rw [QSplit_dist]; norm_num)]
  rw [if_neg (show ¬ (QCtx.area (((4 : ℚ) :: [4]).headD 4) > 8 * (1 / 2)) by
      rw [List.headD_cons, QCtx_area]; norm_num)]
  rw [splitLoop_succ_cons,
    if_neg (show ¬ ((1 : ℚ) < |QCtx.area 4 - 8 * (1 / 2)|) by
      rw [QCtx_area]; norm_num)]

/-- Symbolic evaluation of the concrete non-inplace run of `split`. -/
lemma runFalse_eq (ncat : Category) :
    Area.split QCtx stW 0 (1 / 2) 0 false ncat 10
      = .ok (runStore ncat, some (1, 2)) := by
  rw [split_eq_def, stW_poly, QCtx_is_ccw, QCtx_oracle, QCtx_area,
    QCtx_diameter]
  rw [if_pos (show (1 : ℚ) / 2 > 0 by norm_num), if_pos rfl, run_loop_eq]
  rfl

/-- Symbolic evaluation of the concrete in-place run of `split`. -/
lemma runTrue_eq :
    Area.split QCtx stW 0 (1 / 2) 0 true Category.GARDEN 10
      = .ok (c6Store, none) := by
  rw [split_eq_def, stW_poly, QCtx_is_ccw, QCtx_oracle, QCtx_area,
    QCtx_diameter]
  rw [if_pos (show (1 : ℚ) / 2 > 0 by norm_num), if_pos rfl, run_loop_eq]
  rfl

end Helpers

/-- C1: whenever `split` terminates successfully and returns a pair
`(first, second)`, the first fragment's area is within 1 square unit of
`percentage` times the original polygon's area — precisely the falsified loop
guard `abs(res[0].area - house_area) > 1` of line 159. -/
theorem split_first_fragment_area_within_one {Poly : Type} [Inhabited Poly]
    (g : GeomCtx Poly) (st : Store Poly) (self : Nat)
    (percentage direction : ℚ) (new_category : Category) (fuel : Nat)
    (st1 : Store Poly) (a0 a1 : Nat)
    (_hp0 : 0 < percentage) (_hp1 : percentage < 1)
    (_hpos : 0 < g.area ((st.areas.getD self default).polygon))
    (h : Area.split g st self percentage direction false new_category fuel
          = .ok (st1, some (a0, a1))) :
    |g.area ((st1.areas.getD a0 default).polygon)
      - percentage * g.area ((st.areas.getD self default).polygon)| ≤ 1 := by
  obtain ⟨-, -, r0, r1, rest, hloop, hmat⟩ :=
    split_ok_elim _ _ _ _ _ _ _ _ _ _ h
  rw [materialize_cons_eq] at hmat
  dsimp only at hmat
  rw [if_neg (by simp)] at hmat
  obtain ⟨hst, hpr⟩ := Prod.mk.inj (Except.ok.inj hmat)
  obtain ⟨ha0, ha1⟩ := Prod.mk.inj (Option.some.inj hpr)
  subst hst
  subst ha0
  rw [init_snd, init_fst_areas, init_fst_areas, getD_append2_mid]
  have hb := (splitLoop_ok_head _ _ _ _ _ _ _ _ hloop).1
  rw [List.headD_cons] at hb
  rw [mul_comm] at hb
  exact hb

/-- C1 witness: the concrete half-split run satisfies every hypothesis and its
first fragment (address 1) has area within 1 of half the original area 8. -/
theorem split_first_fragment_area_within_one_witness :
    |QCtx.area (((runStore Category.GARDEN).areas.getD 1 default).polygon)
      - (1 / 2) * QCtx.area ((stW.areas.getD 0 default).polygon)| ≤ 1 :=
  split_first_fragment_area_within_one QCtx stW 0 (1 / 2) 0 Category.GARDEN 10
    (runStore Category.GARDEN) 1 2 (by norm_num) (by norm_num)
    (by rw [stW_poly, QCtx_area]; norm_num) (runFalse_eq Category.GARDEN)

/-- C2 (code bug in the source): for every area whose polygon is not
counter-clockwise and every positive percentage, `split` raises
`AttributeError` at line 127, because `self.polygon = Polygon(coords[::-1])`
assigns to the read-only property `polygon` (lines 88-90 define no setter);
the claimed in-place reversal therefore never succeeds. -/
theorem split_clockwise_always_attribute_error {Poly : Type} [Inhabited Poly]
    (g : GeomCtx Poly) (st : Store Poly) (self : Nat)
    (percentage direction : ℚ) (inplace : Bool) (new_category : Category)
    (fuel : Nat) (hp : 0 < percentage)
    (hcw : g.is_ccw ((st.areas.getD self default).polygon) = false) :
    Area.split g st self percentage direction inplace new_category fuel
      = .error .attributeError := by
  rw [split_eq_def, if_pos hp, hcw, if_neg (by simp)]

/-- C2 witness: the clockwise square of area 800 (category HOUSE) raises
`AttributeError` on `split(0.25, 0)`. -/
theorem split_clockwise_always_attribute_error_witness :
    Area.split cwCtx stCW 0 (1 / 4) 0 true Category.GARDEN 100
      = .error .attributeError :=
  split_clockwise_always_attribute_error cwCtx stCW 0 (1 / 4) 0 true
    Category.GARDEN 100 (by norm_num) rfl

/-- C3 counterexample: `percentage = 1` lies outside the open interval
`(0, 1)`, yet the precondition check `assert percentage > 0` passes and the
call raises `IndexError` (at `res[1]`, line 179, because the loop exits
immediately with the single piece `[self.polygon]`), not the claimed
`InvalidArgument`: the claimed equivalence fails in the only-if direction. -/
theorem split_percentage_one_passes_check :
    Area.split QCtx stW 0 1 0 false Category.GARDEN 10 = .error .indexError
    ∧ ¬((0 : ℚ) < 1 ∧ (1 : ℚ) < 1) := by
  constructor
  · rw [split_eq_def, stW_poly, QCtx_is_ccw, QCtx_oracle, QCtx_area,
      QCtx_diameter]
    rw [if_pos (show (1 : ℚ) > 0 by norm_num), if_pos rfl]
    rw [splitLoop_succ_cons,
      if_neg (show ¬ ((1 : ℚ) < |QCtx.area 8 - 8 * 1|) by
        rw [QCtx_area]; norm_num)]
    rfl
  · intro hc
    exact absurd hc.2 (by norm_num)

/-- C3 amended: `split` raises the precondition error (`assert percentage >
0`, the spec's `InvalidArgument`) if and only if `percentage ≤ 0`; every
positive percentage — in particular all of `(0, 1)` — passes the check, and
the source has no upper-bound check. -/
theorem split_assertion_error_iff_percentage_nonpositive {Poly : Type}
    [Inhabited Poly] (g : GeomCtx Poly) (st : Store Poly) (self : Nat)
    (percentage direction : ℚ) (inplace : Bool) (new_category : Category)
    (fuel : Nat) :
    (Area.split g st self percentage direction inplace new_category fuel
       = .error .assertionError) ↔ percentage ≤ 0 := by
  constructor
  · intro h
    by_contra hpos
    rw [not_le] at hpos
    rw [split_eq_def, if_pos hpos] at h
    cases hb : g.is_ccw ((st.areas.getD self default).polygon) with
    | false =>
      rw [hb, if_neg (by simp)] at h
      exact PyErr.noConfusion (Except.error.inj h)
    | true =>
      rw [hb, if_pos rfl] at h
      cases hloop : splitLoop
          (g.oracle ((st.areas.getD self default).polygon) direction) g.area
          (g.area ((st.areas.getD self default).polygon) * percentage) fuel
          (g.diameter ((st.areas.getD self default).polygon) / 2)
          (g.diameter ((st.areas.getD self default).polygon) / 2)
          [(st.areas.getD self default).polygon] with
      | error e =>
        rw [hloop] at h
        have he : e = .assertionError := Except.error.inj h
        rw [he] at hloop
        exact splitLoop_ne_assertionError _ _ _ _ _ _ _ hloop
      | ok res =>
        rw [hloop] at h
        cases res with
        | nil => exact PyErr.noConfusion (Except.error.inj h)
        | cons r0 t =>
          cases t with
          | nil => exact PyErr.noConfusion (Except.error.inj h)
          | cons r1 rest =>
            cases inplace with
            | false => exact Except.noConfusion h
            | true => exact Except.noConfusion h
  · intro hle
    rw [split_eq_def, if_neg (not_lt.mpr hle)]

/-- C3 amended witness: `percentage = 0` raises the precondition error. -/
theorem split_assertion_error_iff_percentage_nonpositive_witness :
    Area.split QCtx stW 0 0 0 true Category.GARDEN 5
      = .error .assertionError :=
  (split_assertion_error_iff_percentage_nonpositive QCtx stW 0 0 0 true
    Category.GARDEN 5).mpr (by norm_num)

/-- C4: the piece-ordering step of the loop (lines 169-173, embedded as
`orderPieces` and invoked by `splitLoop` each iteration) assigns the "first"
role to the piece whose distance to the hit point is not greater than the
other's, the result being the input pair in one of its two orders. -/
theorem orderPieces_assigns_closer_piece_first {Poly : Type} (dP : Poly → ℚ)
    (a0 a1 : Poly) :
    dP ((orderPieces dP a0 a1 []).headD a0)
        ≤ dP ((orderPieces dP a0 a1 []).tail.headD a1)
    ∧ (orderPieces dP a0 a1 [] = [a0, a1]
        ∨ orderPieces dP a0 a1 [] = [a1, a0]) := by
  rw [orderPieces]
  by_cases hd : dP a0 > dP a1
  · rw [if_pos hd]
    exact ⟨le_of_lt hd, Or.inr rfl⟩
  · rw [if_neg hd]
    exact ⟨le_of_not_lt hd, Or.inl rfl⟩

/-- C6: on success with `inplace = True`, `split` returns `None` and sets the
original area's `sub_areas` to the fresh two-element list of the two new
areas' addresses, leaving its polygon unchanged; with `inplace = False` it
returns the pair of new addresses and leaves the original's `sub_areas`
attribute and that list's contents untouched (polygon again unchanged). -/
theorem split_frame_sub_areas {Poly : Type} [Inhabited Poly]
    (g : GeomCtx Poly) (st : Store Poly) (self : Nat)
    (percentage direction : ℚ) (inplace : Bool) (new_category : Category)
    (fuel : Nat) (st1 : Store Poly) (r : Option (Nat × Nat))
    (hself : self < st.areas.length)
    (hcell : (st.areas.getD self default).sub_areas < st.cells.length)
    (h : Area.split g st self percentage direction inplace new_category fuel
          = .ok (st1, r)) :
    (inplace = true → r = none
      ∧ cellContents st1 ((st1.areas.getD self default).sub_areas)
          = [st.areas.length, st.areas.length + 1]
      ∧ (st1.areas.getD self default).polygon
          = (st.areas.getD self default).polygon)
    ∧ (inplace = false → r = some (st.areas.length, st.areas.length + 1)
      ∧ (st1.areas.getD self default).sub_areas
          = (st.areas.getD self default).sub_areas
      ∧ cellContents st1 ((st1.areas.getD self default).sub_areas)
          = cellContents st ((st.areas.getD self default).sub_areas)
      ∧ (st1.areas.getD self default).polygon
          = (st.areas.getD self default).polygon) := by
  obtain ⟨-, -, r0, r1, rest, -, hmat⟩ := split_ok_elim _ _ _ _ _ _ _ _ _ _ h
  have hm := materialize_ok _ _ _ _ _ _ _ _ _ _ hself hcell hmat
  refine ⟨fun hi => ?_, fun hi => ?_⟩
  · exact ⟨(hm.2.2.2.2.2.2.1 hi).1, (hm.2.2.2.2.2.2.1 hi).2,
      hm.2.2.2.2.2.1⟩
  · exact ⟨(hm.2.2.2.2.2.2.2 hi).1, (hm.2.2.2.2.2.2.2 hi).2.1,
      (hm.2.2.2.2.2.2.2 hi).2.2, hm.2.2.2.2.2.1⟩

/-- C6 witness: the concrete in-place half-split sets the sub-area list of
area 0 to the two fresh addresses and keeps its polygon. -/
theorem split_frame_sub_areas_witness :
    cellContents c6Store ((c6Store.areas.getD 0 default).sub_areas) = [1, 2]
    ∧ (c6Store.areas.getD 0 default).polygon = 8 := by
  have hm := split_frame_sub_areas QCtx stW 0 (1 / 2) 0 true Category.GARDEN
    10 c6Store none (by decide) (by decide) runTrue_eq
  have h2 := hm.1 rfl
  exact ⟨h2.2.1, h2.2.2⟩

/-- C7: `components` returns the `sub_areas` list when it is non-empty,
returns the one-element list containing the area itself when it is empty, and
never returns an empty sequence. -/
theorem components_nonempty_spec {Poly : Type} [Inhabited Poly]
    (st : Store Poly) (self : Nat) :
    (cellContents st ((st.areas.getD self default).sub_areas) ≠ [] →
        Area.components st self
          = cellContents st ((st.areas.getD self default).sub_areas))
    ∧ (cellContents st ((st.areas.getD self default).sub_areas) = [] →
        Area.components st self = [self])
    ∧ Area.components st self ≠ [] := by
  rw [Area.components]
  by_cases hc :
      0 < (cellContents st ((st.areas.getD self default).sub_areas)).length
  · rw [if_pos hc]
    refine ⟨fun _ => rfl, fun he => ?_, List.length_pos.mp hc⟩
    rw [he] at hc
    exact absurd hc (by simp)
  · rw [if_neg hc]
    have he : cellContents st ((st.areas.getD self default).sub_areas)
        = [] := by
      rw [not_lt, Nat.le_zero] at hc
      exact List.length_eq_zero.mp hc
    exact ⟨fun hne => absurd he hne, fun _ => rfl, by simp⟩

/-- C7 witness: the witness area has no sub-areas, so `components` is the
one-element list containing the area itself, and is non-empty. -/
theorem components_nonempty_spec_witness :
    Area.components stW 0 = [0] ∧ Area.components stW 0 ≠ [] := by
  have h := components_nonempty_spec stW 0
  exact ⟨h.2.1 (by decide), h.2.2⟩

/-- C8: over any construction sequence from any starting state, the assigned
ids are strictly increasing in construction order (any earlier-constructed
area's id is smaller than any later one's) and pairwise distinct. -/
theorem constructAll_ids_strictly_increasing_and_distinct {Poly : Type}
    [Inhabited Poly] (st : Store Poly) (reqs : List (Poly × Category)) :
    List.Pairwise (fun a b => a < b) (constructAll st reqs).2
    ∧ List.Pairwise (fun a b => a ≠ b) (constructAll st reqs).2 := by
  have hchain : List.Chain' (fun a b : Nat => a < b)
      (constructAll st reqs).2 := by
    induction reqs generalizing st with
    | nil => simp [constructAll]
    | cons pc rest ih =>
      obtain ⟨p, c⟩ := pc
      simp only [constructAll]
      rw [List.chain'_cons']
      refine ⟨?_, ih _⟩
      intro b hb
      have hbmem : b ∈ (constructAll (Area.init st p c none).1 rest).2 :=
        List.mem_of_mem_head? hb
      have hgt := constructAll_ids_gt (Area.init st p c none).1 rest b hbmem
      rw [init_fst_last_id] at hgt
      rw [init_identity]
      omega
  have hpw := List.chain'_iff_pairwise.mp hchain
  exact ⟨hpw, hpw.imp (fun hlt => Nat.ne_of_lt hlt)⟩

/-- C9: a successful `split` leaves the original area's category and identity
untouched for either `inplace` value, gives the first fragment the original's
category, and gives the second fragment `new_category` (whose Python default
is `split_default_new_category = Category.GARDEN`). -/
theorem split_preserves_category_and_identity {Poly : Type} [Inhabited Poly]
    (g : GeomCtx Poly) (st : Store Poly) (self : Nat)
    (percentage direction : ℚ) (inplace : Bool) (new_category : Category)
    (fuel : Nat) (st1 : Store Poly) (r : Option (Nat × Nat))
    (hself : self < st.areas.length)
    (hcell : (st.areas.getD self default).sub_areas < st.cells.length)
    (h : Area.split g st self percentage direction inplace new_category fuel
          = .ok (st1, r)) :
    (st1.areas.getD self default).category
        = (st.areas.getD self default).category
    ∧ Area.identity st1 self = Area.identity st self
    ∧ (st1.areas.getD st.areas.length default).category
        = (st.areas.getD self default).category
    ∧ (st1.areas.getD (st.areas.length + 1) default).category
        = new_category := by
  obtain ⟨-, -, r0, r1, rest, -, hmat⟩ := split_ok_elim _ _ _ _ _ _ _ _ _ _ h
  have hm := materialize_ok _ _ _ _ _ _ _ _ _ _ hself hcell hmat
  exact ⟨hm.2.2.2.1, hm.2.2.2.2.1, hm.2.1, hm.2.2.1⟩

/-- C9 witness: the concrete run with the default second category keeps HOUSE
and id 1 on the original and labels the fragments HOUSE and GARDEN. -/
theorem split_preserves_category_and_identity_witness :
    ((runStore split_default_new_category).areas.getD 0 default).category
        = Category.HOUSE
    ∧ Area.identity (runStore split_default_new_category) 0 = 1
    ∧ ((runStore split_default_new_category).areas.getD 1 default).category
        = Category.HOUSE
    ∧ ((runStore split_default_new_category).areas.getD 2 default).category
        = Category.GARDEN := by
  have hm := split_preserves_category_and_identity QCtx stW 0 (1 / 2) 0 false
    split_default_new_category 10 (runStore split_default_new_category)
    (some (1, 2)) (by decide) (by decide)
    (runFalse_eq split_default_new_category)
  exact ⟨hm.1, hm.2.1, hm.2.2.1, hm.2.2.2⟩

/-- C10: the constructor validates nothing (any polygon value, degenerate or
not, is accepted — the embedding is a total function because the source has
no checks), appends the new object's address to `Area.members` exactly once,
and when `sub_areas` is omitted allocates a fresh empty list whose cell is
shared with no pre-existing area. -/
theorem init_no_validation_registers_fresh {Poly : Type} [Inhabited Poly]
    (st : Store Poly) (p : Poly) (c : Category)
    (hinv : ∀ i, i < st.areas.length →
        (st.areas.getD i default).sub_areas < st.cells.length) :
    (Area.init st p c none).1.members
        = st.members ++ [(Area.init st p c none).2]
    ∧ ((Area.init st p c none).1.areas.getD (Area.init st p c none).2
        default).sub_areas = st.cells.length
    ∧ cellContents (Area.init st p c none).1 st.cells.length = []
    ∧ ∀ i, i < st.areas.length →
        ((Area.init st p c none).1.areas.getD i default).sub_areas
          ≠ ((Area.init st p c none).1.areas.getD (Area.init st p c none).2
              default).sub_areas := by
  refine ⟨?_, ?_, ?_, ?_⟩
  · rw [init_fst_members, init_snd]
  · rw [init_snd, init_fst_areas, getD_append_len]
  · rw [cellContents, init_fst_cells, getD_append_len]
  · intro i hi
    rw [init_snd, init_fst_areas, getD_append_len,
      getD_append_lt _ _ _ _ hi]
    exact Nat.ne_of_lt (hinv i hi)

/-- C10 witness: constructing an area with the degenerate polygon of area 0
in the empty state succeeds, registers address 0 once, and allocates the
fresh empty sub-area list at cell 0. -/
theorem init_no_validation_registers_fresh_witness :
    (Area.init (emptyStore ℚ) 0 Category.FIELD none).1.members = [0]
    ∧ ((Area.init (emptyStore ℚ) 0 Category.FIELD none).1.areas.getD 0
        default).sub_areas = 0
    ∧ cellContents (Area.init (emptyStore ℚ) 0 Category.FIELD none).1 0
        = [] := by
  have h := init_no_validation_registers_fresh (emptyStore ℚ) 0 Category.FIELD
    (fun i hi => absurd hi (Nat.not_lt_zero i))
  exact ⟨h.1, h.2.1, h.2.2.1⟩

end TownGen
